import Mathlib

/-!
Verification of the coin-selection and transaction-assembly engine of
`fiber-demo-startup` (src/src/main.rs).

The engine is embedded shallowly:

* `u64` / `u128` quantities are modelled as `Nat` (the claims under study
  concern underflow and balance, not wrap-around of additions); every
  unsigned subtraction the source performs without a preceding guard is
  modelled by an explicit guard whose failing branch returns the
  distinguished error `"underflow"`, exactly where the Rust debug build
  would abort.
* Byte strings are `List Nat` (each entry a byte value).
* The external collaborators (RPC ledger enumeration, key handling,
  signing, broadcast) are out of the engine's scope; `transfer_ckb` and
  `transfer_sudt` therefore receive the already-enumerated cell lists as
  parameters (the `find_ckb_cells` / `find_sudt_cells` results) and
  recipient lock scripts are abstracted to owner identifiers (`Nat`).
* Fallible paths (the source's `assert!` calls and debug-mode arithmetic
  panics) are `Except String`; the assembled unsigned transaction is
  `TxTemplate`, with inputs kept as the selected cells themselves so that
  their capacities and payloads remain visible to the balance theorems.
-/

/-- Transaction fee, `TX_FEE: u64 = 100000` (main.rs line 40). -/
def TX_FEE : Nat := 100000

/-- Minimum cell capacity for an sUDT cell,
`MIN_SUDT_CELL_CAPACITY: u64 = 142_00000000` (main.rs line 38). -/
def MIN_SUDT_CELL_CAPACITY : Nat := 14200000000

/-- The pure-capacity change dust threshold, the literal `61_00000000`
appearing at main.rs lines 490 and 498. -/
def CKB_DUST_THRESHOLD : Nat := 6100000000

/-- Little-endian byte decoding: `u128::from_le_bytes` on the byte list it
is given (main.rs line 207). -/
def fromLeBytes : List Nat → Nat
  | [] => 0
  | b :: rest => b + 256 * fromLeBytes rest

/-- Little-endian byte encoding of width `n`: `amount.to_le_bytes()` is
`toLeBytes 16` (main.rs line 212). -/
def toLeBytes : Nat → Nat → List Nat
  | 0, _ => []
  | n + 1, x => x % 256 :: toLeBytes n (x / 256)

/-- `parse_sudt_amount` (main.rs lines 201-208): payloads shorter than 16
bytes decode to 0; otherwise the first 16 bytes are read as a
little-endian `u128`. -/
def parse_sudt_amount (data : List Nat) : Nat :=
  if data.length < 16 then 0
  else fromLeBytes (data.take 16)

/-- `encode_sudt_amount` (main.rs lines 211-213): the exact 16-byte
little-endian encoding. -/
def encode_sudt_amount (amount : Nat) : List Nat :=
  toLeBytes 16 amount

/-- A spendable output as the transfer functions consume it: its capacity
(`output.capacity`) and its payload bytes (`output_data`).  The locating
out-point is opaque to every claim and is omitted. -/
structure LiveCell where
  capacity : Nat
  data : List Nat
deriving Repr, DecidableEq

/-- An assembled output: capacity, owner of the lock script (abstracted to
an identifier), and whether the sUDT type script is attached. -/
structure Output where
  capacity : Nat
  lockKey : Nat
  hasType : Bool
deriving Repr, DecidableEq

/-- The unsigned transaction template: inputs (the selected cells),
outputs, one payload per output, and one empty witness placeholder per
input. -/
structure TxTemplate where
  inputs : List LiveCell
  outputs : List Output
  outputs_data : List (List Nat)
  witnesses : List Unit
deriving Repr, DecidableEq

/-- The greedy first-fit selection loop shared by both transfer modes
(main.rs lines 290-306 and 399-416): walk the cells in order, push each
cell and add its value to the running total `acc`, and stop as soon as the
running total reaches `target`.  Returns the selected cells and the final
running total. -/
def collectLoop (valueOf : LiveCell → Nat) (target : Nat) (acc : Nat) :
    List LiveCell → List LiveCell × Nat
  | [] => ([], acc)
  | c :: rest =>
    let acc2 := acc + valueOf c
    if target ≤ acc2 then ([c], acc2)
    else
      let r := collectLoop valueOf target acc2 rest
      (c :: r.1, r.2)

/-- Sum of capacities over a list of cells. -/
def capSum (cells : List LiveCell) : Nat :=
  (cells.map fun c => c.capacity).sum

/-- Sum of decoded token amounts over a list of cells. -/
def tokSum (cells : List LiveCell) : Nat :=
  (cells.map fun c => parse_sudt_amount c.data).sum

/-- Sum of capacities over assembled outputs. -/
def outCapSum (outs : List Output) : Nat :=
  (outs.map fun o => o.capacity).sum

/-- Total amount requested by a recipient list (main.rs lines 280, 388). -/
def totalRequested (recipients : List (Nat × Nat)) : Nat :=
  (recipients.map fun r => r.2).sum

/-- Recipient outputs of the native mode (main.rs lines 319-327): capacity
is the requested amount, no type script. -/
def recipientOutputsCkb (recipients : List (Nat × Nat)) : List Output :=
  recipients.map fun r => { capacity := r.2, lockKey := r.1, hasType := false }

/-- Recipient payloads of the native mode: one default (empty) payload per
recipient (main.rs line 326). -/
def recipientDataCkb (recipients : List (Nat × Nat)) : List (List Nat) :=
  recipients.map fun _ => []

/-- `transfer_ckb` (main.rs lines 274-379), up to the point where the
unsigned template is handed to the external signer: greedy selection of
pure-capacity cells against `total_amount + TX_FEE`, the insufficiency
assert, one output per recipient, and a change output exactly when the
remainder `input_capacity - total_amount - TX_FEE` is positive.  The two
unchecked `u64` subtractions are guarded here; the guard can only fail on
an execution the debug build would abort. -/
def transfer_ckb (ckb_cells : List LiveCell) (from_key : Nat)
    (recipients : List (Nat × Nat)) : Except String TxTemplate :=
  let total_amount := totalRequested recipients
  let total_needed := total_amount + TX_FEE
  let sel := collectLoop (fun c => c.capacity) total_needed 0 ckb_cells
  let inputs := sel.1
  let input_capacity := sel.2
  if input_capacity < total_needed then
    Except.error "Not enough CKB"
  else
    if total_amount ≤ input_capacity then
      if TX_FEE ≤ input_capacity - total_amount then
        let change_amount := input_capacity - total_amount - TX_FEE
        let outputs :=
          if change_amount > 0 then
            recipientOutputsCkb recipients ++
              [{ capacity := change_amount, lockKey := from_key, hasType := false }]
          else recipientOutputsCkb recipients
        let outputs_data :=
          if change_amount > 0 then recipientDataCkb recipients ++ [[]]
          else recipientDataCkb recipients
        Except.ok
          { inputs := inputs
            outputs := outputs
            outputs_data := outputs_data
            witnesses := List.replicate inputs.length () }
      else Except.error "underflow"
    else Except.error "underflow"

/-- Token-pass selection of `transfer_sudt` (main.rs lines 399-416). -/
def sudtSelection (sudt_cells : List LiveCell) (recipients : List (Nat × Nat)) :
    List LiveCell × Nat :=
  collectLoop (fun c => parse_sudt_amount c.data) (totalRequested recipients) 0 sudt_cells

/-- Native capacity riding along on the token-pass inputs
(`input_capacity` accumulated at main.rs line 411). -/
def sudtInputCapacity0 (sudt_cells : List LiveCell) (recipients : List (Nat × Nat)) : Nat :=
  capSum (sudtSelection sudt_cells recipients).1

/-- `total_output_capacity` (main.rs line 427). -/
def sudtTotalOutputCapacity (recipients : List (Nat × Nat)) : Nat :=
  MIN_SUDT_CELL_CAPACITY * recipients.length

/-- The second, capacity top-up selection pass (main.rs lines 430-456):
triggered only when the token-pass capacity falls short of
`total_output_capacity + TX_FEE + MIN_SUDT_CELL_CAPACITY`; no sufficiency
check follows it. -/
def sudtCkbInputs (sudt_cells ckb_cells : List LiveCell)
    (recipients : List (Nat × Nat)) : List LiveCell :=
  let input_capacity0 := sudtInputCapacity0 sudt_cells recipients
  let requirement := sudtTotalOutputCapacity recipients + TX_FEE + MIN_SUDT_CELL_CAPACITY
  if input_capacity0 < requirement then
    let needed_capacity := requirement - input_capacity0
    (collectLoop (fun c => c.capacity) needed_capacity 0 ckb_cells).1
  else []

/-- Final `input_capacity` after both passes (main.rs line 450). -/
def sudtFinalCapacity (sudt_cells ckb_cells : List LiveCell)
    (recipients : List (Nat × Nat)) : Nat :=
  sudtInputCapacity0 sudt_cells recipients +
    capSum (sudtCkbInputs sudt_cells ckb_cells recipients)

/-- Recipient outputs of the fungible mode (main.rs lines 463-470):
capacity floor `MIN_SUDT_CELL_CAPACITY`, sUDT type script attached. -/
def recipientOutputsSudt (recipients : List (Nat × Nat)) : List Output :=
  recipients.map fun r =>
    { capacity := MIN_SUDT_CELL_CAPACITY, lockKey := r.1, hasType := true }

/-- Recipient payloads of the fungible mode (main.rs line 471): the
encoded requested token amount. -/
def recipientDataSudt (recipients : List (Nat × Nat)) : List (List Nat) :=
  recipients.map fun r => encode_sudt_amount r.2

/-- The token-change output (main.rs lines 480-484). -/
def sudtChangeOutput (from_key : Nat) : Output :=
  { capacity := MIN_SUDT_CELL_CAPACITY, lockKey := from_key, hasType := true }

/-- `transfer_sudt` (main.rs lines 382-560), up to the point where the
unsigned template is handed to the external signer: the empty-cell-list
assert, greedy token selection, the token insufficiency assert, the
unchecked capacity top-up pass, recipient outputs at the capacity floor,
and the change policy (token change at the floor, then a pure-capacity
change only above the dust threshold).  The unchecked `u64` subtractions
`input_capacity - total_output_capacity - TX_FEE` (main.rs line 476) and
`change_capacity - MIN_SUDT_CELL_CAPACITY` (main.rs line 489) are guarded
here; a failing guard is exactly an execution the debug build would
abort. -/
def transfer_sudt (sudt_cells ckb_cells : List LiveCell) (from_key : Nat)
    (recipients : List (Nat × Nat)) : Except String TxTemplate :=
  let total_sudt_amount := totalRequested recipients
  if sudt_cells.isEmpty then Except.error "No sUDT cells found"
  else
    let sel := sudtSelection sudt_cells recipients
    let inputs := sel.1
    let input_sudt_amount := sel.2
    if input_sudt_amount < total_sudt_amount then
      Except.error "Not enough sUDT"
    else
      let ckb_inputs := sudtCkbInputs sudt_cells ckb_cells recipients
      let input_capacity := sudtFinalCapacity sudt_cells ckb_cells recipients
      let total_output_capacity := sudtTotalOutputCapacity recipients
      let change_sudt_amount := input_sudt_amount - total_sudt_amount
      let all_inputs := inputs ++ ckb_inputs
      let wits : List Unit := List.replicate (inputs.length + ckb_inputs.length) ()
      if total_output_capacity ≤ input_capacity then
        if TX_FEE ≤ input_capacity - total_output_capacity then
          let change_capacity := input_capacity - total_output_capacity - TX_FEE
          if change_sudt_amount > 0 then
            if MIN_SUDT_CELL_CAPACITY ≤ change_capacity then
              let remaining_capacity := change_capacity - MIN_SUDT_CELL_CAPACITY
              if remaining_capacity > CKB_DUST_THRESHOLD then
                Except.ok
                  { inputs := all_inputs
                    outputs := recipientOutputsSudt recipients ++
                      [sudtChangeOutput from_key,
                       { capacity := remaining_capacity, lockKey := from_key,
                         hasType := false }]
                    outputs_data := recipientDataSudt recipients ++
                      [encode_sudt_amount change_sudt_amount, []]
                    witnesses := wits }
              else
                Except.ok
                  { inputs := all_inputs
                    outputs := recipientOutputsSudt recipients ++
                      [sudtChangeOutput from_key]
                    outputs_data := recipientDataSudt recipients ++
                      [encode_sudt_amount change_sudt_amount]
                    witnesses := wits }
            else Except.error "underflow"
          else if change_capacity > CKB_DUST_THRESHOLD then
            Except.ok
              { inputs := all_inputs
                outputs := recipientOutputsSudt recipients ++
                  [{ capacity := change_capacity, lockKey := from_key, hasType := false }]
                outputs_data := recipientDataSudt recipients ++ [[]]
                witnesses := wits }
          else
            Except.ok
              { inputs := all_inputs
                outputs := recipientOutputsSudt recipients
                outputs_data := recipientDataSudt recipients
                witnesses := wits }
        else Except.error "underflow"
      else Except.error "underflow"

/-! ## Properties of the selection loop -/

theorem collectLoop_snd_eq (valueOf : LiveCell → Nat) (target : Nat)
    (cells : List LiveCell) : ∀ acc : Nat,
    (collectLoop valueOf target acc cells).2 =
      acc + ((collectLoop valueOf target acc cells).1.map valueOf).sum := by
  induction cells with
  | nil => intro acc; simp [collectLoop]
  | cons c rest ih =>
    intro acc
    by_cases h : target ≤ acc + valueOf c
    · simp [collectLoop, h]
    · have := ih (acc + valueOf c)
      simp only [collectLoop, if_neg h, List.map_cons, List.sum_cons]
      omega

theorem collectLoop_take_spec (valueOf : LiveCell → Nat) (target : Nat)
    (cells : List LiveCell) : ∀ acc : Nat,
    ∃ k, k ≤ cells.length ∧
      (collectLoop valueOf target acc cells).1 = cells.take k ∧
      (∀ j, 0 < j → j < k → acc + ((cells.take j).map valueOf).sum < target) ∧
      (target ≤ acc + ((cells.take k).map valueOf).sum ∨ k = cells.length) := by
  induction cells with
  | nil =>
    intro acc
    exact ⟨0, by simp [collectLoop]⟩
  | cons c rest ih =>
    intro acc
    by_cases h : target ≤ acc + valueOf c
    · refine ⟨1, by simp, by simp [collectLoop, h], ?_, ?_⟩
      · intro j hj hj1; omega
      · left; simpa using h
    · obtain ⟨k, hk, hsel, hmin, hstop⟩ := ih (acc + valueOf c)
      refine ⟨k + 1, by simpa using hk, ?_, ?_, ?_⟩
      · simp [collectLoop, h, hsel]
      · intro j hj hjk
        cases j with
        | zero => omega
        | succ j' =>
          simp only [List.take_succ_cons, List.map_cons, List.sum_cons]
          rcases Nat.eq_zero_or_pos j' with hz | hp
          · subst hz; simp; omega
          · have := hmin j' hp (by omega)
            omega
      · rcases hstop with hstop | hstop
        · left
          simp only [List.take_succ_cons, List.map_cons, List.sum_cons]
          omega
        · right; simp [hstop]

theorem collectLoop_exhaust (valueOf : LiveCell → Nat) (target : Nat)
    (cells : List LiveCell) : ∀ acc : Nat,
    acc + (cells.map valueOf).sum < target →
    collectLoop valueOf target acc cells = (cells, acc + (cells.map valueOf).sum) := by
  induction cells with
  | nil => intro acc _; simp [collectLoop]
  | cons c rest ih =>
    intro acc h
    simp only [List.map_cons, List.sum_cons] at h
    have hnot : ¬ target ≤ acc + valueOf c := by omega
    have hih := ih (acc + valueOf c) (by omega)
    simp only [collectLoop, if_neg hnot, hih, List.map_cons, List.sum_cons,
      Prod.mk.injEq]
    exact ⟨trivial, by omega⟩

theorem collectLoop_subset (valueOf : LiveCell → Nat) (target acc : Nat)
    (cells : List LiveCell) :
    ∀ x ∈ (collectLoop valueOf target acc cells).1, x ∈ cells := by
  obtain ⟨k, _, hsel, _, _⟩ := collectLoop_take_spec valueOf target cells acc
  rw [hsel]
  exact fun x hx => List.take_subset k cells hx

/-! ## Sum lemmas -/

theorem capSum_append (a b : List LiveCell) : capSum (a ++ b) = capSum a + capSum b := by
  simp [capSum]

theorem tokSum_append (a b : List LiveCell) : tokSum (a ++ b) = tokSum a + tokSum b := by
  simp [tokSum]

theorem outCapSum_append (a b : List Output) :
    outCapSum (a ++ b) = outCapSum a + outCapSum b := by
  simp [outCapSum]

theorem capSum_take_le (l : List LiveCell) (k : Nat) : capSum (l.take k) ≤ capSum l := by
  conv_rhs => rw [← List.take_append_drop k l]
  rw [capSum_append]; omega

theorem tokSum_take_le (l : List LiveCell) (k : Nat) : tokSum (l.take k) ≤ tokSum l := by
  conv_rhs => rw [← List.take_append_drop k l]
  rw [tokSum_append]; omega

theorem outCapSum_recipCkb (rs : List (Nat × Nat)) :
    outCapSum (recipientOutputsCkb rs) = totalRequested rs := by
  induction rs with
  | nil => simp [outCapSum, recipientOutputsCkb, totalRequested]
  | cons r rest ih =>
    simp only [outCapSum, recipientOutputsCkb, totalRequested, List.map_cons,
      List.map_map, List.sum_cons] at ih ⊢
    omega

theorem outCapSum_recipSudt (rs : List (Nat × Nat)) :
    outCapSum (recipientOutputsSudt rs) = MIN_SUDT_CELL_CAPACITY * rs.length := by
  induction rs with
  | nil => simp [outCapSum, recipientOutputsSudt]
  | cons r rest ih =>
    simp only [outCapSum, recipientOutputsSudt, List.map_cons, List.map_map,
      List.sum_cons, List.length_cons, Nat.mul_succ] at ih ⊢
    omega

/-! ## Codec lemmas -/

theorem toLeBytes_length (n : Nat) : ∀ x : Nat, (toLeBytes n x).length = n := by
  induction n with
  | zero => intro x; simp [toLeBytes]
  | succ n ih => intro x; simp [toLeBytes, ih]

theorem fromLeBytes_toLeBytes (n : Nat) : ∀ x : Nat,
    fromLeBytes (toLeBytes n x) = x % 256 ^ n := by
  induction n with
  | zero => intro x; simp [toLeBytes, fromLeBytes, Nat.mod_one]
  | succ n ih =>
    intro x
    simp only [toLeBytes, fromLeBytes, ih]
    rw [pow_succ', Nat.mod_mul]

theorem parse_encode (x : Nat) :
    parse_sudt_amount (encode_sudt_amount x) = x % 2 ^ 128 := by
  have hlen : (encode_sudt_amount x).length = 16 := toLeBytes_length 16 x
  rw [parse_sudt_amount, if_neg (by omega), List.take_of_length_le (by omega)]
  rw [encode_sudt_amount, fromLeBytes_toLeBytes]
  norm_num

theorem parse_nil : parse_sudt_amount [] = 0 := by
  simp [parse_sudt_amount]

/-! ## Case analyses of the two assembly paths -/

theorem transfer_ckb_ok_cases (ckb : List LiveCell) (k : Nat) (rs : List (Nat × Nat))
    (t : TxTemplate) (h : transfer_ckb ckb k rs = Except.ok t) :
    totalRequested rs + TX_FEE ≤
      (collectLoop (fun c => c.capacity) (totalRequested rs + TX_FEE) 0 ckb).2 ∧
    t.inputs = (collectLoop (fun c => c.capacity) (totalRequested rs + TX_FEE) 0 ckb).1 ∧
    t.witnesses = List.replicate t.inputs.length () ∧
    ((0 < (collectLoop (fun c => c.capacity) (totalRequested rs + TX_FEE) 0 ckb).2 -
        totalRequested rs - TX_FEE ∧
      t.outputs = recipientOutputsCkb rs ++
        [{ capacity := (collectLoop (fun c => c.capacity) (totalRequested rs + TX_FEE) 0 ckb).2 -
             totalRequested rs - TX_FEE, lockKey := k, hasType := false }] ∧
      t.outputs_data = recipientDataCkb rs ++ [[]]) ∨
     ((collectLoop (fun c => c.capacity) (totalRequested rs + TX_FEE) 0 ckb).2 =
        totalRequested rs + TX_FEE ∧
      t.outputs = recipientOutputsCkb rs ∧
      t.outputs_data = recipientDataCkb rs)) := by
  simp only [transfer_ckb] at h
  split_ifs at h with h1 h2 h3 h4
  · simp only [Except.ok.injEq] at h
    subst h
    exact ⟨by omega, rfl, rfl, Or.inl ⟨h4, rfl, rfl⟩⟩
  · simp only [Except.ok.injEq] at h
    subst h
    exact ⟨by omega, rfl, rfl, Or.inr ⟨by omega, rfl, rfl⟩⟩

/-- Capacity-change output (main.rs lines 331-336, 491-494, 500-504). -/
def capacityChangeOutput (amount key : Nat) : Output :=
  { capacity := amount, lockKey := key, hasType := false }

theorem transfer_sudt_ok_cases (sudt ckb2 : List LiveCell) (k : Nat)
    (rs : List (Nat × Nat)) (u : TxTemplate)
    (h : transfer_sudt sudt ckb2 k rs = Except.ok u) :
    sudt.isEmpty = false ∧
    totalRequested rs ≤ (sudtSelection sudt rs).2 ∧
    sudtTotalOutputCapacity rs + TX_FEE ≤ sudtFinalCapacity sudt ckb2 rs ∧
    u.inputs = (sudtSelection sudt rs).1 ++ sudtCkbInputs sudt ckb2 rs ∧
    u.witnesses = List.replicate
      ((sudtSelection sudt rs).1.length + (sudtCkbInputs sudt ckb2 rs).length) () ∧
    ((0 < (sudtSelection sudt rs).2 - totalRequested rs ∧
      MIN_SUDT_CELL_CAPACITY ≤
        sudtFinalCapacity sudt ckb2 rs - sudtTotalOutputCapacity rs - TX_FEE ∧
      ((CKB_DUST_THRESHOLD <
          sudtFinalCapacity sudt ckb2 rs - sudtTotalOutputCapacity rs - TX_FEE -
            MIN_SUDT_CELL_CAPACITY ∧
        u.outputs = recipientOutputsSudt rs ++
          [sudtChangeOutput k,
           capacityChangeOutput
             (sudtFinalCapacity sudt ckb2 rs - sudtTotalOutputCapacity rs - TX_FEE -
               MIN_SUDT_CELL_CAPACITY) k] ∧
        u.outputs_data = recipientDataSudt rs ++
          [encode_sudt_amount ((sudtSelection sudt rs).2 - totalRequested rs), []]) ∨
       (sudtFinalCapacity sudt ckb2 rs - sudtTotalOutputCapacity rs - TX_FEE -
          MIN_SUDT_CELL_CAPACITY ≤ CKB_DUST_THRESHOLD ∧
        u.outputs = recipientOutputsSudt rs ++ [sudtChangeOutput k] ∧
        u.outputs_data = recipientDataSudt rs ++
          [encode_sudt_amount ((sudtSelection sudt rs).2 - totalRequested rs)]))) ∨
     ((sudtSelection sudt rs).2 = totalRequested rs ∧
      ((CKB_DUST_THRESHOLD <
          sudtFinalCapacity sudt ckb2 rs - sudtTotalOutputCapacity rs - TX_FEE ∧
        u.outputs = recipientOutputsSudt rs ++
          [capacityChangeOutput
            (sudtFinalCapacity sudt ckb2 rs - sudtTotalOutputCapacity rs - TX_FEE) k] ∧
        u.outputs_data = recipientDataSudt rs ++ [[]]) ∨
       (sudtFinalCapacity sudt ckb2 rs - sudtTotalOutputCapacity rs - TX_FEE ≤
          CKB_DUST_THRESHOLD ∧
        u.outputs = recipientOutputsSudt rs ∧
        u.outputs_data = recipientDataSudt rs)))) := by
  simp only [transfer_sudt, capacityChangeOutput] at h ⊢
  split_ifs at h with h1 h2 h3 h4 h5 h6 h7
  · simp only [Except.ok.injEq] at h
    subst h
    exact ⟨by simpa using h1, by omega, by omega, rfl, rfl,
      Or.inl ⟨by omega, by omega, Or.inl ⟨by omega, rfl, rfl⟩⟩⟩
  · simp only [Except.ok.injEq] at h
    subst h
    exact ⟨by simpa using h1, by omega, by omega, rfl, rfl,
      Or.inl ⟨by omega, by omega, Or.inr ⟨by omega, rfl, rfl⟩⟩⟩
  · simp only [Except.ok.injEq] at h
    subst h
    exact ⟨by simpa using h1, by omega, by omega, rfl, rfl,
      Or.inr ⟨by omega, Or.inl ⟨by omega, rfl, rfl⟩⟩⟩
  · simp only [Except.ok.injEq] at h
    subst h
    exact ⟨by simpa using h1, by omega, by omega, rfl, rfl,
      Or.inr ⟨by omega, Or.inr ⟨by omega, rfl, rfl⟩⟩⟩

/-! ## Bridge lemmas between selections and sums -/

theorem collect_cap_snd (target : Nat) (cells : List LiveCell) :
    (collectLoop (fun c => c.capacity) target 0 cells).2 =
      capSum (collectLoop (fun c => c.capacity) target 0 cells).1 := by
  simpa [capSum] using collectLoop_snd_eq (fun c => c.capacity) target cells 0

theorem sudtSelection_snd (sudt : List LiveCell) (rs : List (Nat × Nat)) :
    (sudtSelection sudt rs).2 = tokSum (sudtSelection sudt rs).1 := by
  simpa [sudtSelection, tokSum] using
    collectLoop_snd_eq (fun c => parse_sudt_amount c.data) (totalRequested rs) sudt 0

theorem sudtSelection_tokSum_le (sudt : List LiveCell) (rs : List (Nat × Nat)) :
    tokSum (sudtSelection sudt rs).1 ≤ tokSum sudt := by
  obtain ⟨k, _, hsel, _, _⟩ :=
    collectLoop_take_spec (fun c => parse_sudt_amount c.data) (totalRequested rs) sudt 0
  rw [sudtSelection, hsel]
  exact tokSum_take_le sudt k

theorem sudtCkbInputs_subset (sudt ckb2 : List LiveCell) (rs : List (Nat × Nat)) :
    ∀ x ∈ sudtCkbInputs sudt ckb2 rs, x ∈ ckb2 := by
  intro x hx
  rw [sudtCkbInputs] at hx
  split at hx
  · exact collectLoop_subset _ _ _ _ x hx
  · simp at hx

theorem capSum_all_inputs (sudt ckb2 : List LiveCell) (rs : List (Nat × Nat)) :
    capSum ((sudtSelection sudt rs).1 ++ sudtCkbInputs sudt ckb2 rs) =
      sudtFinalCapacity sudt ckb2 rs := by
  rw [capSum_append]
  simp [sudtFinalCapacity, sudtInputCapacity0]

/-! ## Insufficiency of the two checked selection passes -/

theorem transfer_ckb_insufficient (ckb : List LiveCell) (k : Nat)
    (rs : List (Nat × Nat)) (h : capSum ckb < totalRequested rs + TX_FEE) :
    transfer_ckb ckb k rs = Except.error "Not enough CKB" := by
  have hex := collectLoop_exhaust (fun c => c.capacity) (totalRequested rs + TX_FEE)
    ckb 0 (by simpa [capSum] using h)
  simp only [transfer_ckb, hex]
  have hlt : 0 + (ckb.map fun c => c.capacity).sum < totalRequested rs + TX_FEE := by
    simpa [capSum] using h
  simp [hlt]
  intro hge
  exact absurd hge (by omega)

theorem transfer_sudt_token_insufficient (sudt ckb2 : List LiveCell) (k : Nat)
    (rs : List (Nat × Nat)) (hne : sudt ≠ [])
    (h : tokSum sudt < totalRequested rs) :
    transfer_sudt sudt ckb2 k rs = Except.error "Not enough sUDT" := by
  have hex := collectLoop_exhaust (fun c => parse_sudt_amount c.data)
    (totalRequested rs) sudt 0 (by simpa [tokSum] using h)
  have hemp : sudt.isEmpty = false := by
    cases sudt with
    | nil => exact absurd rfl hne
    | cons a l => rfl
  simp only [transfer_sudt, sudtSelection, hex, hemp]
  have hlt : 0 + (sudt.map fun c => parse_sudt_amount c.data).sum < totalRequested rs := by
    simpa [tokSum] using h
  simp [hlt]
  intro hge
  exact absurd hge (by omega)

/-! ## Claim theorems -/

/-- C6: for every cell sequence and target, the coin selector consumes an
initial segment of the sequence in the given order, its running total is
the sum of the selected cells' values, the scan stops at the first cell
position at which the running total has reached the target, and no cell
after that position is included (if the target is never reached, the whole
sequence is consumed). -/
theorem C6_greedy_selection_initial_segment (valueOf : LiveCell → Nat)
    (target : Nat) (cells : List LiveCell) :
    ∃ k, k ≤ cells.length ∧
      (collectLoop valueOf target 0 cells).1 = cells.take k ∧
      (collectLoop valueOf target 0 cells).2 = ((cells.take k).map valueOf).sum ∧
      (∀ j, 0 < j → j < k → ((cells.take j).map valueOf).sum < target) ∧
      (target ≤ ((cells.take k).map valueOf).sum ∨ k = cells.length) := by
  obtain ⟨k, hk, hsel, hmin, hstop⟩ := collectLoop_take_spec valueOf target cells 0
  refine ⟨k, hk, hsel, ?_, ?_, ?_⟩
  · have hsnd := collectLoop_snd_eq valueOf target cells 0
    rw [hsnd, hsel]
    omega
  · intro j hj hjk
    have := hmin j hj hjk
    omega
  · rcases hstop with hs | hs
    · left; omega
    · exact Or.inr hs

/-- C7: decoding the 16-byte little-endian encoding of any `u128` token
quantity returns the original quantity. -/
theorem C7_codec_roundtrip (x : Nat) (h : x < 2 ^ 128) :
    parse_sudt_amount (encode_sudt_amount x) = x := by
  rw [parse_encode]
  exact Nat.mod_eq_of_lt h

/-- Witness for C7 at the largest representable `u128` value. -/
theorem C7_codec_roundtrip_witness :
    (340282366920938463463374607431768211455 : Nat) < 2 ^ 128 ∧
    parse_sudt_amount (encode_sudt_amount 340282366920938463463374607431768211455) =
      340282366920938463463374607431768211455 :=
  ⟨by norm_num, C7_codec_roundtrip 340282366920938463463374607431768211455 (by norm_num)⟩

/-- C9: every payload strictly shorter than 16 bytes decodes to zero
rather than failing. -/
theorem C9_short_payload_decodes_to_zero (data : List Nat)
    (h : data.length < 16) : parse_sudt_amount data = 0 := by
  simp [parse_sudt_amount, h]

/-- Witness for C9 on a 3-byte payload. -/
theorem C9_short_payload_decodes_to_zero_witness :
    ([1, 2, 3] : List Nat).length < 16 ∧ parse_sudt_amount [1, 2, 3] = 0 :=
  ⟨by decide, C9_short_payload_decodes_to_zero [1, 2, 3] (by decide)⟩

/-- C10: a fungible-mode transfer with no token-bearing cells fails with
the distinct "No sUDT cells found" error, for every recipient list and
pure-capacity cell population, before any selection or sufficiency
computation (in particular even when the requested total is zero). -/
theorem C10_no_token_cells_distinct_error (ckb2 : List LiveCell) (k : Nat)
    (rs : List (Nat × Nat)) :
    transfer_sudt [] ckb2 k rs = Except.error "No sUDT cells found" := rfl

/-- C2 (amended): insufficiency in the two checked selection passes — the
native pass and the token pass — reports the corresponding insufficiency
error and produces no template.  (The second capacity top-up pass of the
fungible mode performs no such check; see the counterexample.) -/
theorem C2_insufficiency_checked_passes (ckb : List LiveCell) (k : Nat)
    (rs : List (Nat × Nat)) (sudt ckb2 : List LiveCell) (k2 : Nat)
    (rs2 : List (Nat × Nat)) :
    (capSum ckb < totalRequested rs + TX_FEE →
      transfer_ckb ckb k rs = Except.error "Not enough CKB") ∧
    (sudt ≠ [] → tokSum sudt < totalRequested rs2 →
      transfer_sudt sudt ckb2 k2 rs2 = Except.error "Not enough sUDT") :=
  ⟨fun h => transfer_ckb_insufficient ckb k rs h,
   fun hne h => transfer_sudt_token_insufficient sudt ckb2 k2 rs2 hne h⟩

/-- Witness for C2 on concrete insufficient populations. -/
theorem C2_insufficiency_checked_passes_witness :
    transfer_ckb [⟨5, []⟩] 0 [(1, 1000000)] = Except.error "Not enough CKB" ∧
    transfer_sudt [⟨100, encode_sudt_amount 1⟩] [] 0 [(1, 5)] =
      Except.error "Not enough sUDT" := by
  have hthm := C2_insufficiency_checked_passes [⟨5, []⟩] 0 [(1, 1000000)]
    [⟨100, encode_sudt_amount 1⟩] [] 0 [(1, 5)]
  exact ⟨hthm.1 (by decide), hthm.2 (by decide) (by decide)⟩

/-- A token-bearing cell whose capacity covers one recipient output and
the fee but not the reserved change floor: it triggers the capacity top-up
pass. -/
def c2cell : LiveCell := ⟨MIN_SUDT_CELL_CAPACITY + TX_FEE, encode_sudt_amount 10⟩

/-- C2 counterexample: the capacity top-up pass is triggered (the
token-pass capacity is below the requirement), the pure-capacity cell
population (empty) sums to strictly less than the top-up target, and yet a
transaction template is produced — the second pass reports no
insufficiency. -/
theorem C2_counterexample_unchecked_topup :
    sudtInputCapacity0 [c2cell] [(1, 10)] <
      sudtTotalOutputCapacity [(1, 10)] + TX_FEE + MIN_SUDT_CELL_CAPACITY ∧
    capSum ([] : List LiveCell) <
      sudtTotalOutputCapacity [(1, 10)] + TX_FEE + MIN_SUDT_CELL_CAPACITY -
        sudtInputCapacity0 [c2cell] [(1, 10)] ∧
    ∃ u, transfer_sudt [c2cell] [] 0 [(1, 10)] = Except.ok u :=
  ⟨by decide, by decide, ⟨_, rfl⟩⟩

/-- C3 counterexample: a reachable execution in which the fungible-mode
subtraction `input_capacity - total_output_capacity - TX_FEE` underflows:
the single token-bearing cell carries enough tokens but almost no
capacity, and no pure-capacity cell is available, so the unchecked top-up
pass collects nothing and the subtrahend exceeds the minuend. -/
theorem C3_counterexample_underflow_reachable :
    transfer_sudt [⟨100, encode_sudt_amount 10⟩] [] 0 [(1, 10)] =
      Except.error "underflow" := rfl

/-- C3 (amended): the native-mode subtractions never underflow (the
insufficiency assert runs first), and the fungible-mode subtractions do
not underflow provided the post-top-up input capacity covers
`total_output_capacity + TX_FEE + MIN_SUDT_CELL_CAPACITY` — which holds
whenever the top-up pass is not needed or reaches its target, but is not
guaranteed otherwise. -/
theorem C3_no_underflow_amended (ckb : List LiveCell) (k : Nat)
    (rs : List (Nat × Nat)) (sudt ckb2 : List LiveCell) (k2 : Nat)
    (rs2 : List (Nat × Nat))
    (h : sudtTotalOutputCapacity rs2 + TX_FEE + MIN_SUDT_CELL_CAPACITY ≤
      sudtFinalCapacity sudt ckb2 rs2) :
    transfer_ckb ckb k rs ≠ Except.error "underflow" ∧
    transfer_sudt sudt ckb2 k2 rs2 ≠ Except.error "underflow" := by
  constructor
  · intro hc
    simp only [transfer_ckb] at hc
    split_ifs at hc with h1 h2 h3
    · injection hc with hs
      exact absurd hs (by decide)
    · omega
    · omega
  · intro hc
    simp only [transfer_sudt] at hc
    split_ifs at hc with h1 h2 h3 h4 h5 h6
    · injection hc with hs
      exact absurd hs (by decide)
    · injection hc with hs
      exact absurd hs (by decide)
    · omega
    · omega
    · omega

/-- A token-bearing cell whose capacity meets the fungible-mode capacity
requirement for one recipient exactly. -/
def c3wcell : LiveCell := ⟨2 * MIN_SUDT_CELL_CAPACITY + TX_FEE, encode_sudt_amount 10⟩

/-- Witness for C3 on a concrete sufficient execution. -/
theorem C3_no_underflow_amended_witness :
    (sudtTotalOutputCapacity [(1, 10)] + TX_FEE + MIN_SUDT_CELL_CAPACITY ≤
      sudtFinalCapacity [c3wcell] [] [(1, 10)]) ∧
    (transfer_ckb [] 0 [] ≠ Except.error "underflow" ∧
     transfer_sudt [c3wcell] [] 0 [(1, 10)] ≠ Except.error "underflow") :=
  ⟨by decide, C3_no_underflow_amended [] 0 [] [c3wcell] [] 0 [(1, 10)] (by decide)⟩

theorem outCapSum_recipSudt_total (rs : List (Nat × Nat)) :
    outCapSum (recipientOutputsSudt rs) = sudtTotalOutputCapacity rs := by
  rw [outCapSum_recipSudt]; rfl

theorem outCapSum_singleton (o : Output) : outCapSum [o] = o.capacity := by
  simp [outCapSum]

theorem outCapSum_pair (a b : Output) : outCapSum [a, b] = a.capacity + b.capacity := by
  simp [outCapSum]

theorem Output_mk_capacity (a b : Nat) (c : Bool) : (Output.mk a b c).capacity = a := rfl

theorem sudtChangeOutput_capacity (k : Nat) :
    (sudtChangeOutput k).capacity = MIN_SUDT_CELL_CAPACITY := rfl

theorem capacityChangeOutput_capacity (a k : Nat) :
    (capacityChangeOutput a k).capacity = a := rfl

/-- C1 (amended): in the native mode the selected input capacity equals
the output capacity plus `TX_FEE` exactly; in the fungible mode it equals
the output capacity plus `TX_FEE` plus a forfeited dust remainder `d` with
`d ≤ CKB_DUST_THRESHOLD` (`d = 0` whenever a pure-capacity change output
is emitted, but a positive remainder at or below the threshold is dropped
without an output). -/
theorem C1_capacity_conservation_amended
    (ckb : List LiveCell) (k : Nat) (rs : List (Nat × Nat)) (t : TxTemplate)
    (h1 : transfer_ckb ckb k rs = Except.ok t)
    (sudt ckb2 : List LiveCell) (k2 : Nat) (rs2 : List (Nat × Nat)) (u : TxTemplate)
    (h2 : transfer_sudt sudt ckb2 k2 rs2 = Except.ok u) :
    capSum t.inputs = outCapSum t.outputs + TX_FEE ∧
    ∃ d, d ≤ CKB_DUST_THRESHOLD ∧
      capSum u.inputs = outCapSum u.outputs + TX_FEE + d := by
  constructor
  · have hc := transfer_ckb_ok_cases ckb k rs t h1
    have hle := hc.1
    have hin := hc.2.1
    have hout := hc.2.2.2
    have hsnd : capSum t.inputs =
        (collectLoop (fun c => c.capacity) (totalRequested rs + TX_FEE) 0 ckb).2 := by
      rw [hin]
      exact (collect_cap_snd (totalRequested rs + TX_FEE) ckb).symm
    rcases hout with ⟨hpos, ho, -⟩ | ⟨heq, ho, -⟩
    · rw [hsnd, ho, outCapSum_append, outCapSum_recipCkb, outCapSum_singleton,
        Output_mk_capacity]
      omega
    · rw [hsnd, ho, outCapSum_recipCkb]
      omega
  · have hc := transfer_sudt_ok_cases sudt ckb2 k2 rs2 u h2
    have hcap := hc.2.2.1
    have hin := hc.2.2.2.1
    have hbr := hc.2.2.2.2.2
    have hins : capSum u.inputs = sudtFinalCapacity sudt ckb2 rs2 := by
      rw [hin]
      exact capSum_all_inputs sudt ckb2 rs2
    rcases hbr with ⟨hchg, hmin, ⟨hdust, ho, -⟩ | ⟨hdust, ho, -⟩⟩ |
      ⟨hchg, ⟨hdust, ho, -⟩ | ⟨hdust, ho, -⟩⟩
    · refine ⟨0, by omega, ?_⟩
      rw [hins, ho, outCapSum_append, outCapSum_recipSudt_total, outCapSum_pair,
        sudtChangeOutput_capacity, capacityChangeOutput_capacity]
      omega
    · refine ⟨sudtFinalCapacity sudt ckb2 rs2 - sudtTotalOutputCapacity rs2 - TX_FEE -
        MIN_SUDT_CELL_CAPACITY, hdust, ?_⟩
      rw [hins, ho, outCapSum_append, outCapSum_recipSudt_total, outCapSum_singleton,
        sudtChangeOutput_capacity]
      omega
    · refine ⟨0, by omega, ?_⟩
      rw [hins, ho, outCapSum_append, outCapSum_recipSudt_total, outCapSum_singleton,
        capacityChangeOutput_capacity]
      omega
    · refine ⟨sudtFinalCapacity sudt ckb2 rs2 - sudtTotalOutputCapacity rs2 - TX_FEE,
        hdust, ?_⟩
      rw [hins, ho, outCapSum_recipSudt_total]
      omega

/-- A token-bearing cell used by several concrete witness executions:
twice the capacity floor plus the fee, carrying 20 tokens. -/
def demoSudtCell : LiveCell := ⟨2 * MIN_SUDT_CELL_CAPACITY + TX_FEE, encode_sudt_amount 20⟩

/-- The template assembled by the concrete native-mode witness run. -/
def demoCkbTemplate : TxTemplate :=
  { inputs := [⟨1000 + TX_FEE, []⟩], outputs := [⟨1000, 1, false⟩],
    outputs_data := [[]], witnesses := [()] }

/-- The template assembled by the concrete fungible-mode witness run. -/
def demoSudtTemplate : TxTemplate :=
  { inputs := [demoSudtCell],
    outputs := [⟨MIN_SUDT_CELL_CAPACITY, 1, true⟩, sudtChangeOutput 0],
    outputs_data := [encode_sudt_amount 10, encode_sudt_amount 10],
    witnesses := [()] }

/-- Witness for C1 on concrete executions of both modes. -/
theorem C1_capacity_conservation_amended_witness :
    transfer_ckb [⟨1000 + TX_FEE, []⟩] 0 [(1, 1000)] = Except.ok demoCkbTemplate ∧
    transfer_sudt [demoSudtCell] [] 0 [(1, 10)] = Except.ok demoSudtTemplate ∧
    (capSum demoCkbTemplate.inputs = outCapSum demoCkbTemplate.outputs + TX_FEE ∧
     ∃ d, d ≤ CKB_DUST_THRESHOLD ∧
       capSum demoSudtTemplate.inputs = outCapSum demoSudtTemplate.outputs + TX_FEE + d) := by
  have e1 : transfer_ckb [⟨1000 + TX_FEE, []⟩] 0 [(1, 1000)] = Except.ok demoCkbTemplate := rfl
  have e2 : transfer_sudt [demoSudtCell] [] 0 [(1, 10)] = Except.ok demoSudtTemplate := rfl
  exact ⟨e1, e2, C1_capacity_conservation_amended [⟨1000 + TX_FEE, []⟩] 0 [(1, 1000)]
    demoCkbTemplate e1 [demoSudtCell] [] 0 [(1, 10)] demoSudtTemplate e2⟩

/-- C1 counterexample: a fungible-mode template whose input capacity does
not equal output capacity plus the fee — 50 shannons of remainder at or
below the dust threshold are forfeited with no output. -/
theorem C1_counterexample_exact_conservation_fails :
    ∃ u, transfer_sudt [⟨2 * MIN_SUDT_CELL_CAPACITY + TX_FEE + 50, encode_sudt_amount 20⟩]
        [] 0 [(1, 10)] = Except.ok u ∧
      capSum u.inputs ≠ outCapSum u.outputs + TX_FEE := by
  refine ⟨_, rfl, by decide⟩

/-- C8: every assembled template in both modes has exactly one payload
per output and exactly one witness placeholder per input. -/
theorem C8_output_payload_witness_pairing
    (ckb : List LiveCell) (k : Nat) (rs : List (Nat × Nat)) (t : TxTemplate)
    (h1 : transfer_ckb ckb k rs = Except.ok t)
    (sudt ckb2 : List LiveCell) (k2 : Nat) (rs2 : List (Nat × Nat)) (u : TxTemplate)
    (h2 : transfer_sudt sudt ckb2 k2 rs2 = Except.ok u) :
    (t.outputs.length = t.outputs_data.length ∧
     t.witnesses.length = t.inputs.length) ∧
    (u.outputs.length = u.outputs_data.length ∧
     u.witnesses.length = u.inputs.length) := by
  constructor
  · have hc := transfer_ckb_ok_cases ckb k rs t h1
    have hwit := hc.2.2.1
    have hout := hc.2.2.2
    constructor
    · rcases hout with ⟨-, ho, hd⟩ | ⟨-, ho, hd⟩ <;>
        rw [ho, hd] <;>
        simp only [recipientOutputsCkb, recipientDataCkb, List.length_append,
          List.length_map, List.length_cons, List.length_nil]
    · rw [hwit, List.length_replicate]
  · have hc := transfer_sudt_ok_cases sudt ckb2 k2 rs2 u h2
    have hin := hc.2.2.2.1
    have hwit := hc.2.2.2.2.1
    have hbr := hc.2.2.2.2.2
    constructor
    · rcases hbr with ⟨-, -, ⟨-, ho, hd⟩ | ⟨-, ho, hd⟩⟩ | ⟨-, ⟨-, ho, hd⟩ | ⟨-, ho, hd⟩⟩ <;>
        rw [ho, hd] <;>
        simp only [recipientOutputsSudt, recipientDataSudt, List.length_append,
          List.length_map, List.length_cons, List.length_nil]
    · rw [hwit, hin, List.length_replicate, List.length_append]

/-- Witness for C8 on concrete executions of both modes. -/
theorem C8_output_payload_witness_pairing_witness :
    (demoCkbTemplate.outputs.length = demoCkbTemplate.outputs_data.length ∧
     demoCkbTemplate.witnesses.length = demoCkbTemplate.inputs.length) ∧
    (demoSudtTemplate.outputs.length = demoSudtTemplate.outputs_data.length ∧
     demoSudtTemplate.witnesses.length = demoSudtTemplate.inputs.length) := by
  have e1 : transfer_ckb [⟨1000 + TX_FEE, []⟩] 0 [(1, 1000)] = Except.ok demoCkbTemplate := rfl
  have e2 : transfer_sudt [demoSudtCell] [] 0 [(1, 10)] = Except.ok demoSudtTemplate := rfl
  exact C8_output_payload_witness_pairing [⟨1000 + TX_FEE, []⟩] 0 [(1, 1000)]
    demoCkbTemplate e1 [demoSudtCell] [] 0 [(1, 10)] demoSudtTemplate e2

/-- C5 (amended): in the fungible mode every assembled output (recipient,
token-change, or capacity-change) has capacity strictly above the
`CKB_DUST_THRESHOLD` dust threshold, and in the native mode any output
beyond the recipient outputs (i.e. the change output) has strictly
positive capacity — the native path applies no dust floor, so a change
output may lie below the threshold, and recipient outputs in both modes
carry exactly what the caller requested. -/
theorem C5_dust_policy_amended
    (ckb : List LiveCell) (k : Nat) (rs : List (Nat × Nat)) (t : TxTemplate)
    (h1 : transfer_ckb ckb k rs = Except.ok t)
    (sudt ckb2 : List LiveCell) (k2 : Nat) (rs2 : List (Nat × Nat)) (u : TxTemplate)
    (h2 : transfer_sudt sudt ckb2 k2 rs2 = Except.ok u) :
    (∀ o ∈ u.outputs, CKB_DUST_THRESHOLD < o.capacity) ∧
    (∀ o ∈ t.outputs.drop rs.length, 0 < o.capacity) := by
  have hrecip : ∀ x ∈ recipientOutputsSudt rs2, CKB_DUST_THRESHOLD < x.capacity := by
    intro x hx
    rw [recipientOutputsSudt] at hx
    obtain ⟨r, -, rfl⟩ := List.mem_map.1 hx
    show CKB_DUST_THRESHOLD < MIN_SUDT_CELL_CAPACITY
    decide
  constructor
  · have hc := transfer_sudt_ok_cases sudt ckb2 k2 rs2 u h2
    have hbr := hc.2.2.2.2.2
    intro o ho
    rcases hbr with ⟨hchg, hmin, ⟨hdust, hout, -⟩ | ⟨hdust, hout, -⟩⟩ |
      ⟨hchg, ⟨hdust, hout, -⟩ | ⟨hdust, hout, -⟩⟩
    · rw [hout] at ho
      rcases List.mem_append.1 ho with h | h
      · exact hrecip o h
      · rcases List.mem_cons.1 h with rfl | h2
        · rw [sudtChangeOutput_capacity]; decide
        · rcases List.mem_singleton.1 h2 with rfl
          rw [capacityChangeOutput_capacity]
          exact hdust
    · rw [hout] at ho
      rcases List.mem_append.1 ho with h | h
      · exact hrecip o h
      · rcases List.mem_singleton.1 h with rfl
        rw [sudtChangeOutput_capacity]; decide
    · rw [hout] at ho
      rcases List.mem_append.1 ho with h | h
      · exact hrecip o h
      · rcases List.mem_singleton.1 h with rfl
        rw [capacityChangeOutput_capacity]
        exact hdust
    · rw [hout] at ho
      exact hrecip o ho
  · have hc := transfer_ckb_ok_cases ckb k rs t h1
    have hout := hc.2.2.2
    have hlen : (recipientOutputsCkb rs).length = rs.length := by
      simp [recipientOutputsCkb]
    intro o ho
    rcases hout with ⟨hpos, ho2, -⟩ | ⟨heq, ho2, -⟩
    · rw [ho2, ← hlen, List.drop_left] at ho
      rcases List.mem_singleton.1 ho with rfl
      rw [Output_mk_capacity]
      exact hpos
    · rw [ho2, ← hlen, List.drop_length] at ho
      exact absurd ho (List.not_mem_nil o)

/-- Witness for C5 on concrete executions of both modes. -/
theorem C5_dust_policy_amended_witness :
    (∀ o ∈ demoSudtTemplate.outputs, CKB_DUST_THRESHOLD < o.capacity) ∧
    (∀ o ∈ demoCkbTemplate.outputs.drop ([(1, 1000)] : List (Nat × Nat)).length,
      0 < o.capacity) := by
  have e1 : transfer_ckb [⟨1000 + TX_FEE, []⟩] 0 [(1, 1000)] = Except.ok demoCkbTemplate := rfl
  have e2 : transfer_sudt [demoSudtCell] [] 0 [(1, 10)] = Except.ok demoSudtTemplate := rfl
  exact C5_dust_policy_amended [⟨1000 + TX_FEE, []⟩] 0 [(1, 1000)] demoCkbTemplate e1
    [demoSudtCell] [] 0 [(1, 10)] demoSudtTemplate e2

/-- C5 counterexample: a native-mode template containing a pure-capacity
change output of 1 shannon — positive but far below the dust threshold,
so "no assembled output ever has pure-capacity value below the dust
threshold" fails in the native mode. -/
theorem C5_counterexample_native_dust_change :
    ∃ t, transfer_ckb [⟨1000 + TX_FEE + 1, []⟩] 0 [(1, 1000)] = Except.ok t ∧
      ∃ o, o ∈ t.outputs ∧ o.hasType = false ∧ 0 < o.capacity ∧
        o.capacity < CKB_DUST_THRESHOLD := by
  refine ⟨_, rfl, ⟨1, 0, false⟩, by decide, rfl, by decide, by decide⟩

/-! ## Token-sum auxiliary lemmas -/

theorem recipData_length (rs : List (Nat × Nat)) :
    (recipientDataSudt rs).length = rs.length := by
  simp [recipientDataSudt]

theorem recipData_parse_sum (rs : List (Nat × Nat))
    (hr : ∀ r ∈ rs, r.2 < 2 ^ 128) :
    ((recipientDataSudt rs).map parse_sudt_amount).sum = totalRequested rs := by
  induction rs with
  | nil => simp [recipientDataSudt, totalRequested]
  | cons r rest ih =>
    have h1 : r.2 < 2 ^ 128 := hr r (by simp)
    have h2 : ∀ x ∈ rest, x.2 < 2 ^ 128 := fun x hx => hr x (by simp [hx])
    simp only [recipientDataSudt, totalRequested, List.map_cons, List.sum_cons] at ih ⊢
    rw [parse_encode, Nat.mod_eq_of_lt h1, ih h2]

theorem tokSum_eq_zero (l : List LiveCell)
    (h : ∀ c ∈ l, parse_sudt_amount c.data = 0) : tokSum l = 0 := by
  rw [tokSum]
  apply List.sum_eq_zero
  intro x hx
  obtain ⟨c, hc, rfl⟩ := List.mem_map.1 hx
  exact h c hc

theorem recipOutputs_sudt_filter (rs : List (Nat × Nat)) :
    (recipientOutputsSudt rs).filter (fun o => o.hasType) = recipientOutputsSudt rs := by
  rw [List.filter_eq_self]
  intro a ha
  obtain ⟨r, -, rfl⟩ := List.mem_map.1 ha
  rfl

theorem recipOutputs_sudt_length (rs : List (Nat × Nat)) :
    (recipientOutputsSudt rs).length = rs.length := by
  simp [recipientOutputsSudt]

theorem filter_hasType_append_pair (rs : List (Nat × Nat)) (a b : Output)
    (ha : a.hasType = true) (hb : b.hasType = false) :
    ((recipientOutputsSudt rs ++ [a, b]).filter fun o => o.hasType).length =
      rs.length + 1 := by
  have hab : ([a, b].filter fun o => o.hasType) = [a] := by
    simp [List.filter, ha, hb]
  rw [List.filter_append, recipOutputs_sudt_filter, hab, List.length_append,
    recipOutputs_sudt_length, List.length_singleton]

theorem filter_hasType_append_true (rs : List (Nat × Nat)) (a : Output)
    (ha : a.hasType = true) :
    ((recipientOutputsSudt rs ++ [a]).filter fun o => o.hasType).length =
      rs.length + 1 := by
  have hab : ([a].filter fun o => o.hasType) = [a] := by
    simp [List.filter, ha]
  rw [List.filter_append, recipOutputs_sudt_filter, hab, List.length_append,
    recipOutputs_sudt_length, List.length_singleton]

theorem filter_hasType_append_false (rs : List (Nat × Nat)) (b : Output)
    (hb : b.hasType = false) :
    ((recipientOutputsSudt rs ++ [b]).filter fun o => o.hasType).length =
      rs.length := by
  have hab : ([b].filter fun o => o.hasType) = [] := by
    simp [List.filter, hb]
  rw [List.filter_append, recipOutputs_sudt_filter, hab, List.length_append,
    recipOutputs_sudt_length, List.length_nil]
  omega

theorem filter_hasType_recip_length (rs : List (Nat × Nat)) :
    ((recipientOutputsSudt rs).filter fun o => o.hasType).length = rs.length := by
  rw [recipOutputs_sudt_filter, recipOutputs_sudt_length]

theorem data_parse_sum_append (rs : List (Nat × Nat))
    (hr : ∀ r ∈ rs, r.2 < 2 ^ 128) (L : List (List Nat)) :
    ((recipientDataSudt rs ++ L).map parse_sudt_amount).sum =
      totalRequested rs + (L.map parse_sudt_amount).sum := by
  rw [List.map_append, List.sum_append, recipData_parse_sum rs hr]

theorem drop_recipData_head (rs : List (Nat × Nat)) (L : List (List Nat)) :
    ((recipientDataSudt rs ++ L).drop rs.length).head? = L.head? := by
  rw [← recipData_length rs, List.drop_left]

theorem take_recipData (rs : List (Nat × Nat)) (L : List (List Nat)) :
    (recipientDataSudt rs ++ L).take rs.length = recipientDataSudt rs := by
  rw [← recipData_length rs, List.take_left]

theorem sudtChangeOutput_hasType (k : Nat) : (sudtChangeOutput k).hasType = true := rfl

theorem capacityChangeOutput_hasType (a k : Nat) :
    (capacityChangeOutput a k).hasType = false := rfl

/-- C4: for every assembled fungible-mode template (with payloads in the
`u128` range and pure-capacity top-up cells carrying no token payload),
the token amounts decoded from the input payloads sum to exactly the
token amounts encoded into the output payloads; the first
`recipients.length` payloads are the encoded requested amounts, and when
the input tokens strictly exceed the target exactly one token-change
output carries the whole leftover (when they are equal, no token-change
output exists). -/
theorem C4_token_conservation
    (sudt ckb2 : List LiveCell) (k2 : Nat) (rs2 : List (Nat × Nat)) (u : TxTemplate)
    (hb : tokSum sudt < 2 ^ 128)
    (hr : ∀ r ∈ rs2, r.2 < 2 ^ 128)
    (hz : ∀ c ∈ ckb2, parse_sudt_amount c.data = 0)
    (h2 : transfer_sudt sudt ckb2 k2 rs2 = Except.ok u) :
    tokSum u.inputs = (u.outputs_data.map parse_sudt_amount).sum ∧
    u.outputs_data.take rs2.length = recipientDataSudt rs2 ∧
    (totalRequested rs2 < tokSum u.inputs →
      ((u.outputs.filter fun o => o.hasType).length = rs2.length + 1 ∧
       (u.outputs_data.drop rs2.length).head? =
         some (encode_sudt_amount (tokSum u.inputs - totalRequested rs2)))) ∧
    (tokSum u.inputs = totalRequested rs2 →
      (u.outputs.filter fun o => o.hasType).length = rs2.length) := by
  have hc := transfer_sudt_ok_cases sudt ckb2 k2 rs2 u h2
  have hle := hc.2.1
  have hin := hc.2.2.2.1
  have hbr := hc.2.2.2.2.2
  have hsnd := sudtSelection_snd sudt rs2
  have hckb0 : tokSum (sudtCkbInputs sudt ckb2 rs2) = 0 :=
    tokSum_eq_zero _ (fun c hcm => hz c (sudtCkbInputs_subset sudt ckb2 rs2 c hcm))
  have hti : tokSum u.inputs = (sudtSelection sudt rs2).2 := by
    rw [hin, tokSum_append, hckb0, ← hsnd]
    omega
  have hchglt : (sudtSelection sudt rs2).2 - totalRequested rs2 < 2 ^ 128 := by
    have h1 := sudtSelection_tokSum_le sudt rs2
    omega
  rcases hbr with ⟨hchg, -, ⟨-, ho, hd⟩ | ⟨-, ho, hd⟩⟩ |
    ⟨hchg, ⟨-, ho, hd⟩ | ⟨-, ho, hd⟩⟩
  · refine ⟨?_, ?_, ?_, ?_⟩
    · rw [hti, hd, data_parse_sum_append rs2 hr]
      simp only [List.map_cons, List.map_nil, List.sum_cons, List.sum_nil]
      rw [parse_encode, Nat.mod_eq_of_lt hchglt, parse_nil]
      omega
    · rw [hd, take_recipData]
    · intro hlt
      constructor
      · rw [ho, filter_hasType_append_pair rs2 _ _ (sudtChangeOutput_hasType k2)
          (capacityChangeOutput_hasType _ k2)]
      · rw [hd, drop_recipData_head, List.head?_cons, hti]
    · intro heq
      rw [hti] at heq
      omega
  · refine ⟨?_, ?_, ?_, ?_⟩
    · rw [hti, hd, data_parse_sum_append rs2 hr]
      simp only [List.map_cons, List.map_nil, List.sum_cons, List.sum_nil]
      rw [parse_encode, Nat.mod_eq_of_lt hchglt]
      omega
    · rw [hd, take_recipData]
    · intro hlt
      constructor
      · rw [ho, filter_hasType_append_true rs2 _ (sudtChangeOutput_hasType k2)]
      · rw [hd, drop_recipData_head, List.head?_cons, hti]
    · intro heq
      rw [hti] at heq
      omega
  · refine ⟨?_, ?_, ?_, ?_⟩
    · rw [hti, hd, data_parse_sum_append rs2 hr]
      simp only [List.map_cons, List.map_nil, List.sum_cons, List.sum_nil]
      rw [parse_nil]
      omega
    · rw [hd, take_recipData]
    · intro hlt
      rw [hti] at hlt
      omega
    · intro heq
      rw [ho, filter_hasType_append_false rs2 _ (capacityChangeOutput_hasType _ k2)]
  · refine ⟨?_, ?_, ?_, ?_⟩
    · rw [hti, hd, recipData_parse_sum rs2 hr]
      omega
    · rw [hd, ← recipData_length rs2, List.take_length]
    · intro hlt
      rw [hti] at hlt
      omega
    · intro heq
      rw [ho, filter_hasType_recip_length]

/-- Witness for C4 on a concrete fungible execution with token leftover. -/
theorem C4_token_conservation_witness :
    tokSum [demoSudtCell] < 2 ^ 128 ∧
    (tokSum demoSudtTemplate.inputs =
        (demoSudtTemplate.outputs_data.map parse_sudt_amount).sum ∧
      demoSudtTemplate.outputs_data.take ([(1, 10)] : List (Nat × Nat)).length =
        recipientDataSudt [(1, 10)] ∧
      (totalRequested [(1, 10)] < tokSum demoSudtTemplate.inputs →
        ((demoSudtTemplate.outputs.filter fun o => o.hasType).length =
          ([(1, 10)] : List (Nat × Nat)).length + 1 ∧
         (demoSudtTemplate.outputs_data.drop ([(1, 10)] : List (Nat × Nat)).length).head? =
           some (encode_sudt_amount
             (tokSum demoSudtTemplate.inputs - totalRequested [(1, 10)])))) ∧
      (tokSum demoSudtTemplate.inputs = totalRequested [(1, 10)] →
        (demoSudtTemplate.outputs.filter fun o => o.hasType).length =
          ([(1, 10)] : List (Nat × Nat)).length)) := by
  have e2 : transfer_sudt [demoSudtCell] [] 0 [(1, 10)] = Except.ok demoSudtTemplate := rfl
  exact ⟨by decide, C4_token_conservation [demoSudtCell] [] 0 [(1, 10)] demoSudtTemplate
    (by decide) (by decide) (by decide) e2⟩
